import Mathlib

/-!
Verification of the vaccine-distribution MILP model builder.

The development shallowly embeds the two model-formulation variants found in
the repository (`advanced/distribution.py` and `simplified/distribution.py`).
Python dictionaries are embedded as association lists with last-writer-wins
insertion (`dictOf`), mirroring dict-comprehension semantics including silent
overwriting of colliding keys.  Decision variables (docplex non-negative
integer variables) are embedded as total assignments `String → ℕ`; linear
expressions are embedded by their evaluation at an assignment, over `ℚ`;
each emitted constraint is embedded as a Boolean-valued function of the two
assignment families (commodity-flow variables and truck-count variables).
-/

/-- String keys, as used by every dictionary in the source. -/
abbrev Key := String

/-- First-match lookup in an association list (Python `d[k]`, as `Option`). -/
def dlookup {α : Type} (k : Key) : List (Key × α) → Option α
  | [] => none
  | kv :: rest => if k = kv.1 then some kv.2 else dlookup k rest

/-- Insertion with in-place update, matching Python dict assignment: an
existing key keeps its position and receives the new value, a new key is
appended at the end. -/
def dinsert {α : Type} (k : Key) (v : α) : List (Key × α) → List (Key × α)
  | [] => [(k, v)]
  | kv :: rest => if k = kv.1 then (kv.1, v) :: rest else kv :: dinsert k v rest

/-- Build a dictionary from a generated key/value sequence, exactly as a
Python dict comprehension does: later pairs overwrite earlier ones. -/
def dictOf {α : Type} (l : List (Key × α)) : List (Key × α) :=
  l.foldl (fun d kv => dinsert kv.1 kv.2 d) []

/-- The key sequence of a dictionary (Python iteration order). -/
def dkeys {α : Type} (m : List (Key × α)) : List Key :=
  m.map Prod.fst

/-- Sum of a list of rationals (`model.sum`); the empty sum is `0`. -/
def qsum (l : List ℚ) : ℚ := l.foldr (· + ·) 0

/-- Maximum of a list of rationals (`model.max`).  All uses in the model are
over non-empty collections; the empty case is assigned `0`. -/
def listMax : List ℚ → ℚ
  | [] => 0
  | [x] => x
  | x :: y :: xs => max x (listMax (y :: xs))

/-- Python `needle in hay` on strings: byte-wise substring containment. -/
def prefixOfL : List Char → List Char → Bool
  | [], _ => true
  | _ :: _, [] => false
  | a :: as, b :: bs => a == b && prefixOfL as bs

/-- Helper for `strContains`: substring occurrence in a character list. -/
def substrOfL (sub : List Char) : List Char → Bool
  | [] => prefixOfL sub []
  | c :: rest => prefixOfL sub (c :: rest) || substrOfL sub rest

/-- Python `needle in hay` for strings. -/
def strContains (hay needle : Key) : Bool :=
  substrOfL needle.data hay.data

/-! ## Data model (section 3 of the input document) -/

/-- An airport node: carries its maximum dispatchable amount. -/
structure Airport where
  deliveryAmount : ℚ
deriving DecidableEq

/-- A vaccination point node: carries its minimum demand. -/
structure VaccPoint where
  demand : ℚ
deriving DecidableEq

/-- A directed route between two node keys. -/
structure Route where
  start : Key
  «end» : Key
  distance : ℚ
deriving DecidableEq

/-- A truck type. -/
structure TruckType where
  rentCost : ℚ
  kmCost : ℚ
  maxCapacity : ℚ
  avgSpeed : ℚ
deriving DecidableEq

/-- A vaccine type. -/
structure VaccineType where
  lifetime : ℚ
deriving DecidableEq

/-- The loaded network: the six typed collections read from the input
document, each an insertion-ordered dictionary. -/
structure NetworkData where
  airports : List (Key × Airport)
  vaccination_points : List (Key × VaccPoint)
  warehouses : List (Key × Unit)
  routes : List (Key × Route)
  truck_types : List (Key × TruckType)
  vaccine_types : List (Key × VaccineType)

/-- Travel time of a truck type over a route (`route_time_for_truck`,
identical in both variants): the guarded division never faults, a zero
average speed yields the sentinel `10e100`. -/
def route_time_for_truck (route : Route) (truck : TruckType) : ℚ :=
  if truck.avgSpeed = 0 then 10 * 10 ^ 100
  else route.distance / truck.avgSpeed

/-- Total dictionary access for routes (`routes[r]`); the default is never
reached for keys produced by the index construction. -/
def routeOf (d : NetworkData) (r : Key) : Route :=
  (dlookup r d.routes).getD ⟨"", "", 0⟩

/-- Total dictionary access for truck types (`truck_types[t]`). -/
def truckOf (d : NetworkData) (t : Key) : TruckType :=
  (dlookup t d.truck_types).getD ⟨0, 0, 0, 0⟩

/-- Total dictionary access for vaccine types (`vaccine_types[v]`). -/
def vaccineOf (d : NetworkData) (v : Key) : VaccineType :=
  (dlookup v d.vaccine_types).getD ⟨0⟩

/-- Inbound route keys of a node (`point_edge_lookup[p]['in']`), computed by
scanning the route dictionary. -/
def routes_in (routes : List (Key × Route)) (p : Key) : List Key :=
  (routes.filter (fun kv => kv.2.«end» = p)).map Prod.fst

/-- Outbound route keys of a node (`point_edge_lookup[p]['out']`). -/
def routes_out (routes : List (Key × Route)) (p : Key) : List Key :=
  (routes.filter (fun kv => kv.2.start = p)).map Prod.fst

/-! ## Index construction (IndexBuilder)

The source builds each combinatorial space as a dict comprehension whose key
is the plain string concatenation of the component identifiers. -/

/-- A truck-route candidate pair, as stored in `truck_route_combinations`. -/
structure TruckRoutePair where
  route : Key
  truck : Key
deriving DecidableEq

/-- A commodity, as stored in `vaccine_point_combinations`. -/
structure Commodity where
  vaccine : Key
  point : Key
  airport : Key
deriving DecidableEq

/-- A route/commodity quadruple, as stored in
`route_vaccine_point_combinations`. -/
structure RVPA where
  route : Key
  vaccine : Key
  point : Key
  airport : Key
deriving DecidableEq

/-- The generated pair sequence `(r + t, {route: r, truck: t})` with the
truck loop outermost, before dict deduplication. -/
def truckRouteRaw (d : NetworkData) : List (Key × TruckRoutePair) :=
  d.truck_types.flatMap fun t => d.routes.map fun r => (r.1 ++ t.1, ⟨r.1, t.1⟩)

/-- `truck_route_combinations`: dict comprehension over `truckRouteRaw`. -/
def truck_route_combinations (d : NetworkData) : List (Key × TruckRoutePair) :=
  dictOf (truckRouteRaw d)

/-- The generated sequence `(v + p + a, commodity)` with loop order
vaccine, point, airport. -/
def vpaRaw (d : NetworkData) : List (Key × Commodity) :=
  d.vaccine_types.flatMap fun v => d.vaccination_points.flatMap fun p =>
    d.airports.map fun a => (v.1 ++ p.1 ++ a.1, ⟨v.1, p.1, a.1⟩)

/-- `vaccine_point_combinations`. -/
def vaccine_point_combinations (d : NetworkData) : List (Key × Commodity) :=
  dictOf (vpaRaw d)

/-- The generated sequence `(r + v + p + a, quadruple)` with loop order
vaccine, point, airport, route (route innermost). -/
def rvpaRaw (d : NetworkData) : List (Key × RVPA) :=
  d.vaccine_types.flatMap fun v => d.vaccination_points.flatMap fun p =>
    d.airports.flatMap fun a =>
      d.routes.map fun r => (r.1 ++ v.1 ++ p.1 ++ a.1, ⟨r.1, v.1, p.1, a.1⟩)

/-- `route_vaccine_point_combinations`. -/
def route_vaccine_point_combinations (d : NetworkData) : List (Key × RVPA) :=
  dictOf (rvpaRaw d)

/-- The generated sequence behind `truck_route_times`, keyed identically to
`truckRouteRaw` (same loop order), with the travel time as value. -/
def truckRouteTimesRaw (d : NetworkData) : List (Key × ℚ) :=
  d.truck_types.flatMap fun t => d.routes.map fun r =>
    (r.1 ++ t.1, route_time_for_truck r.2 t.2)

/-- `truck_route_times`: travel time of each truck-route key. -/
def truck_route_times (d : NetworkData) : List (Key × ℚ) :=
  dictOf (truckRouteTimesRaw d)

/-- The common key/payload product underlying both `truck_route_combinations`
and `truck_route_times`; used to relate their lookups. -/
def truckRouteProd (d : NetworkData) :
    List (Key × ((Key × Route) × (Key × TruckType))) :=
  d.truck_types.flatMap fun t => d.routes.map fun r => (r.1 ++ t.1, (r, t))

/-- Per-commodity candidate route list (`vaccine_point_routes` values): the
routes of every quadruple matching the commodity, in quadruple order. -/
def routesFor (d : NetworkData) (vpa : Commodity) : List Key :=
  (route_vaccine_point_combinations d).filterMap fun kv =>
    if kv.2.airport = vpa.airport ∧ kv.2.point = vpa.point ∧
        kv.2.vaccine = vpa.vaccine then some kv.2.route else none

/-- `vaccine_point_routes`: dict comprehension over the commodity dict;
its keys are already unique, so it is a plain value map. -/
def vaccine_point_routes (d : NetworkData) : List (Key × List Key) :=
  (vaccine_point_combinations d).map fun kv => (kv.1, routesFor d kv.2)

/-! ## Decision variables and expressions (ExpressionBuilder)

`σq : Key → ℕ` assigns the commodity-flow variables
(`dvar_vaccine_point_quantity_per_route`, keyed by the quadruple keys) and
`σv : Key → ℕ` the simplified per-route quantities; `σt : Key → ℕ` assigns
the truck-count variables (`dvar_trucks_per_route`).  docplex integer
variables carry the default lower bound `0`, hence the codomain `ℕ`. -/

abbrev Assignment := Key → ℕ

/-- A constraint of the generated model, evaluated at the two assignment
families (flow variables first, truck variables second). -/
abbrev ConsB := Assignment → Assignment → Bool

/-- The objective `trucks_rent_cost`: rental plus distance cost over every
truck-route entry.  The source looks the iterated key up in the dict being
iterated, which yields the entry's own value. -/
def trucks_rent_cost (d : NetworkData) (σt : Assignment) : ℚ :=
  qsum ((truck_route_combinations d).map fun kv =>
    (σt kv.1 : ℚ) * (truckOf d kv.2.truck).rentCost +
    (σt kv.1 : ℚ) * (routeOf d kv.2.route).distance * (truckOf d kv.2.truck).kmCost)

/-- Total commodity quantity on a route (`vaccine_quantities[r]`). -/
def route_quantity_sum (d : NetworkData) (σq : Assignment) (r : Key) : ℚ :=
  qsum ((route_vaccine_point_combinations d).filterMap fun kv =>
    if kv.2.route = r then some ((σq kv.1 : ℚ)) else none)

/-- The per-route operands of the inner `model.max` of the travel-time
expression: for each truck-route entry on route `r`, its count clamped to
`{0, 1}` times its tabulated travel time. -/
def trTerms (d : NetworkData) (σt : Assignment) (r : Key) : List ℚ :=
  (truck_route_combinations d).filterMap fun kv =>
    if kv.2.route = r then
      some ((min (σt kv.1) 1 : ℕ) * (dlookup kv.1 (truck_route_times d)).getD 0)
    else none

/-- The travel-time expression of one commodity over its candidate route
list: the sum over the routes of the maximum clamped-count travel time. -/
def commodity_travel_time (d : NetworkData) (σt : Assignment)
    (vparoutes : List Key) : ℚ :=
  qsum (vparoutes.map fun r => listMax (trTerms d σt r))

/-- `vaccine_travel_times`: the travel-time expression of every commodity,
keyed like `vaccine_point_routes`. -/
def vaccine_travel_times (d : NetworkData) (σt : Assignment) : List (Key × ℚ) :=
  (vaccine_point_routes d).map fun kv => (kv.1, commodity_travel_time d σt kv.2)

/-! ## Constraint generation (advanced variant, `prepare_data`) -/

/-- Shelf-life constraint of one commodity (`ct_vaccine_travel_time`):
the looked-up travel-time expression is at most the vaccine lifetime. -/
def shelf_constraint (d : NetworkData) (k vkey : Key) : ConsB := fun _ σt =>
  decide ((dlookup k (vaccine_travel_times d σt)).getD 0 ≤ (vaccineOf d vkey).lifetime)

/-- The shelf-life constraint family, one per commodity entry. -/
def shelf_constraints (d : NetworkData) : List ConsB :=
  (vaccine_point_combinations d).map fun kv => shelf_constraint d kv.1 kv.2.vaccine

/-- Outbound flow of an airport over its own commodities: quadruples with
this source airport whose route leaves the airport. -/
def airport_out_sum (d : NetworkData) (σq : Assignment) (a : Key) : ℚ :=
  qsum ((route_vaccine_point_combinations d).filterMap fun kv =>
    if kv.2.airport = a ∧ kv.2.route ∈ routes_out d.routes a
    then some ((σq kv.1 : ℚ)) else none)

/-- Delivery-cap constraint of one airport (`ct_airport_max_<name>`). -/
def airport_cap_constraint (d : NetworkData) (a : Key) (cap : ℚ) : ConsB :=
  fun σq _ => decide (airport_out_sum d σq a ≤ cap)

/-- The delivery-cap family, one per airport. -/
def airport_cap_constraints (d : NetworkData) : List ConsB :=
  d.airports.map fun kv => airport_cap_constraint d kv.1 kv.2.deliveryAmount

/-- Inbound flow of a vaccination point restricted to commodities destined
there, indexed by the rebuilt key `r + vpaname`. -/
def demand_sum (d : NetworkData) (σq : Assignment) (p : Key) : ℚ :=
  qsum ((routes_in d.routes p).flatMap fun r =>
    (vaccine_point_combinations d).filterMap fun kv =>
      if kv.2.point = p then some ((σq (r ++ kv.1) : ℚ)) else none)

/-- Demand constraint of one vaccination point. -/
def demand_constraint (d : NetworkData) (p : Key) (dem : ℚ) : ConsB :=
  fun σq _ => decide (demand_sum d σq p ≥ dem)

/-- The demand family, one per vaccination point. -/
def demand_constraints (d : NetworkData) : List ConsB :=
  d.vaccination_points.map fun kv => demand_constraint d kv.1 kv.2.demand

/-- Inbound flow of one commodity at a warehouse. -/
def wh_in_sum (d : NetworkData) (σq : Assignment) (w vpaname : Key) : ℚ :=
  qsum ((routes_in d.routes w).map fun r => ((σq (r ++ vpaname) : ℚ)))

/-- Outbound flow of one commodity at a warehouse. -/
def wh_out_sum (d : NetworkData) (σq : Assignment) (w vpaname : Key) : ℚ :=
  qsum ((routes_out d.routes w).map fun r => ((σq (r ++ vpaname) : ℚ)))

/-- Conservation constraint of one warehouse and one commodity. -/
def warehouse_constraint (d : NetworkData) (w k : Key) : ConsB :=
  fun σq _ => decide (wh_in_sum d σq w k = wh_out_sum d σq w k)

/-- The conservation family: every warehouse crossed with every commodity. -/
def warehouse_constraints (d : NetworkData) : List ConsB :=
  d.warehouses.flatMap fun wkv =>
    (vaccine_point_combinations d).map fun kv => warehouse_constraint d wkv.1 kv.1

/-- Total assigned truck capacity on a route: truck-route entries whose
route component equals the route, count times `maxCapacity`. -/
def route_capacity_sum (d : NetworkData) (σt : Assignment) (r : Key) : ℚ :=
  qsum ((truck_route_combinations d).filterMap fun kv =>
    if kv.2.route = r then
      some ((σt kv.1 : ℚ) * (truckOf d kv.2.truck).maxCapacity)
    else none)

/-- Capacity constraint of one route (`ct_truck_capacity_at_least<r>`). -/
def capacity_constraint (d : NetworkData) (r : Key) : ConsB :=
  fun σq σt => decide (route_capacity_sum d σt r ≥ route_quantity_sum d σq r)

/-- The capacity family, one per route. -/
def capacity_constraints (d : NetworkData) : List ConsB :=
  d.routes.map fun kv => capacity_constraint d kv.1

/-- Left side of `ct_vaccine_source_types_equal` for an airport. -/
def airport_identity_lhs (d : NetworkData) (σq : Assignment) (a : Key) : ℚ :=
  qsum ((route_vaccine_point_combinations d).filterMap fun kv =>
    if kv.2.route ∈ routes_out d.routes a ∧ kv.2.airport = a
    then some ((σq kv.1 : ℚ)) else none)

/-- Right side of `ct_vaccine_source_types_equal` for an airport. -/
def airport_identity_rhs (d : NetworkData) (σq : Assignment) (a : Key) : ℚ :=
  qsum (d.vaccination_points.flatMap fun pp =>
    (route_vaccine_point_combinations d).filterMap fun kv =>
      if kv.2.route ∈ routes_in d.routes pp.1 ∧ kv.2.airport = a
      then some ((σq kv.1 : ℚ)) else none)

/-- Source-identity constraint of one airport. -/
def airport_identity_constraint (d : NetworkData) (a : Key) : ConsB :=
  fun σq _ => decide (airport_identity_lhs d σq a = airport_identity_rhs d σq a)

/-- The source-identity family, one per airport. -/
def airport_identity_constraints (d : NetworkData) : List ConsB :=
  d.airports.map fun kv => airport_identity_constraint d kv.1

/-- Left side of `ct_vaccine_dest_types_equal` for a vaccination point. -/
def point_identity_lhs (d : NetworkData) (σq : Assignment) (v : Key) : ℚ :=
  qsum ((route_vaccine_point_combinations d).filterMap fun kv =>
    if kv.2.route ∈ routes_in d.routes v ∧ kv.2.point = v
    then some ((σq kv.1 : ℚ)) else none)

/-- Right side of `ct_vaccine_dest_types_equal` for a vaccination point. -/
def point_identity_rhs (d : NetworkData) (σq : Assignment) (v : Key) : ℚ :=
  qsum (d.airports.flatMap fun akv =>
    (route_vaccine_point_combinations d).filterMap fun kv =>
      if kv.2.route ∈ routes_out d.routes akv.1 ∧ kv.2.point = v
      then some ((σq kv.1 : ℚ)) else none)

/-- Destination-identity constraint of one vaccination point. -/
def point_identity_constraint (d : NetworkData) (v : Key) : ConsB :=
  fun σq _ => decide (point_identity_lhs d σq v = point_identity_rhs d σq v)

/-- The destination-identity family, one per vaccination point. -/
def point_identity_constraints (d : NetworkData) : List ConsB :=
  d.vaccination_points.map fun kv => point_identity_constraint d kv.1

/-- All constraints added by the advanced `prepare_data`, in emission
order. -/
def prepare_data_constraints (d : NetworkData) : List ConsB :=
  shelf_constraints d ++ airport_cap_constraints d ++ demand_constraints d ++
  warehouse_constraints d ++ capacity_constraints d ++
  airport_identity_constraints d ++ point_identity_constraints d

/-- The value returned by the advanced `prepare_data`: a pair of the
objective expression and the list of zero-argument reporting callbacks; the
single callback reads the solution values of `vaccine_travel_times`. -/
def prepare_data (d : NetworkData) :
    (Assignment → ℚ) × List (Assignment → List (Key × ℚ)) :=
  (fun σt => trucks_rent_cost d σt, [fun σt => vaccine_travel_times d σt])

/-- The `run_model.main` driver of the advanced variant: unpacks the pair,
hands objective and constraints to the solver, and invokes the reporting
callbacks only when the solver produced a solution. -/
def run_main (d : NetworkData)
    (solver : List ConsB → (Assignment → ℚ) → Option (Assignment × Assignment)) :
    Option (List (List (Key × ℚ))) :=
  match solver (prepare_data_constraints d) (prepare_data d).1 with
  | some sol => some ((prepare_data d).2.map fun cb => cb sol.2)
  | none => none

/-! ## Simplified variant (`simplified/distribution.py`)

The simplified formulation has per-route quantity variables `σv` (keyed by
route keys), no warehouses and no commodities; the `warehouses` field of
the network record is unused by these definitions. -/

/-- The simplified capacity sum for a route: the source filters the
truck-route keys with Python substring containment `r in tr`, not by the
pair's route component. -/
def capacity_sum_s (d : NetworkData) (σt : Assignment) (r : Key) : ℚ :=
  qsum ((truck_route_combinations d).filterMap fun kv =>
    if strContains kv.1 r then
      some ((σt kv.1 : ℚ) * (truckOf d kv.2.truck).maxCapacity)
    else none)

/-- Simplified capacity constraint of one route. -/
def capacity_constraint_s (d : NetworkData) (r : Key) : ConsB :=
  fun σv σt => decide (capacity_sum_s d σt r ≥ (σv r : ℚ))

/-- Simplified capacity family, one per route. -/
def capacity_constraints_s (d : NetworkData) : List ConsB :=
  d.routes.map fun kv => capacity_constraint_s d kv.1

/-- Simplified airport delivery-cap constraint. -/
def airport_cap_constraint_s (d : NetworkData) (p : Key) (cap : ℚ) : ConsB :=
  fun σv _ => decide (qsum ((routes_out d.routes p).map fun r => ((σv r : ℚ))) ≤ cap)

/-- Simplified delivery-cap family. -/
def airport_cap_constraints_s (d : NetworkData) : List ConsB :=
  d.airports.map fun kv => airport_cap_constraint_s d kv.1 kv.2.deliveryAmount

/-- Simplified demand constraint. -/
def demand_constraint_s (d : NetworkData) (p : Key) (dem : ℚ) : ConsB :=
  fun σv _ => decide (qsum ((routes_in d.routes p).map fun r => ((σv r : ℚ))) ≥ dem)

/-- Simplified demand family. -/
def demand_constraints_s (d : NetworkData) : List ConsB :=
  d.vaccination_points.map fun kv => demand_constraint_s d kv.1 kv.2.demand

/-- Simplified lifetime constraint for one truck-route entry and one
vaccine type: count times travel time at most count times lifetime. -/
def lifetime_constraint_s (d : NetworkData) (trname : Key) (p : TruckRoutePair)
    (lt : ℚ) : ConsB := fun _ σt =>
  decide ((σt trname : ℚ) * route_time_for_truck (routeOf d p.route) (truckOf d p.truck)
    ≤ (σt trname : ℚ) * lt)

/-- Simplified lifetime family: every truck-route entry crossed with every
vaccine type. -/
def lifetime_constraints_s (d : NetworkData) : List ConsB :=
  (truck_route_combinations d).flatMap fun kv =>
    d.vaccine_types.map fun v => lifetime_constraint_s d kv.1 kv.2 v.2.lifetime

/-- All constraints added by the simplified `prepare_data`, in emission
order. -/
def prepare_data_constraints_s (d : NetworkData) : List ConsB :=
  airport_cap_constraints_s d ++ demand_constraints_s d ++
  capacity_constraints_s d ++ lifetime_constraints_s d

/-! ## Network loading (NetworkLoader) -/

/-- The raw input document: each top-level section may be missing. -/
structure RawDoc where
  airports : Option (List (Key × Airport))
  vaccinationPoints : Option (List (Key × VaccPoint))
  warehouses : Option (List (Key × Unit))
  routes : Option (List (Key × Route))
  trucks : Option (List (Key × TruckType))
  vaccines : Option (List (Key × VaccineType))

/-- The section-extraction prologue of the advanced `prepare_data`: each
missing top-level key raises (embedded as `Except.error`), in source access
order; present sections are returned untouched.  No validation of route
endpoint references is performed. -/
def load_model_objects (doc : RawDoc) : Except String NetworkData :=
  match doc.airports with
  | none => .error "KeyError: airports"
  | some as =>
    match doc.vaccinationPoints with
    | none => .error "KeyError: vaccinationPoints"
    | some vps =>
      match doc.warehouses with
      | none => .error "KeyError: warehouses"
      | some whs =>
        match doc.routes with
        | none => .error "KeyError: routes"
        | some rts =>
          match doc.trucks with
          | none => .error "KeyError: trucks"
          | some tks =>
            match doc.vaccines with
            | none => .error "KeyError: vaccines"
            | some vcs => .ok ⟨as, vps, whs, rts, tks, vcs⟩

/-! ## Spec-side travel-time expression (for claim C1)

Modelled from the spec: `commodityTravelTime[commodity]` as the sum, over
exactly the routes carrying a positive quantity of the commodity (indicator
`min(flow, 1)` clamping the carried commodity quantity), of the maximum
travel time among truck types assigned a non-zero count on that route. -/

/-- The spec's wording of the travel-time aggregate, for comparison with the
code's `commodity_travel_time`. -/
def commodity_travel_time_spec (d : NetworkData) (σq σt : Assignment)
    (vpaname : Key) : ℚ :=
  qsum ((dkeys d.routes).map fun r =>
    (min (σq (r ++ vpaname)) 1 : ℕ) *
      listMax ((truck_route_combinations d).filterMap fun kv =>
        if kv.2.route = r ∧ 0 < σt kv.1
        then some ((dlookup kv.1 (truck_route_times d)).getD 0) else none))

/-! ## Concrete instances used by counterexamples and witnesses -/

/-- The all-zero assignment. -/
def σ0 : Assignment := fun _ => 0

/-- A small well-formed network: one airport, one warehouse, one
vaccination point, two routes through the warehouse, one truck, one
vaccine. -/
def dW : NetworkData :=
  ⟨[("A", ⟨100⟩)], [("P", ⟨0⟩)], [("W", ())],
   [("R1", ⟨"A", "W", 4⟩), ("R2", ⟨"W", "P", 6⟩)],
   [("T", ⟨5, 1, 50, 5⟩)], [("V", ⟨100⟩)]⟩

/-- Network for the C1 counterexample: a truck is assigned to the only
route while the commodity flow everywhere is zero. -/
def dC1 : NetworkData :=
  ⟨[("A", ⟨100⟩)], [("P", ⟨50⟩)], [],
   [("R", ⟨"A", "P", 10⟩)], [("T", ⟨5, 1, 50, 2⟩)], [("V", ⟨100⟩)]⟩

/-- Truck assignment for the C1 counterexample: one truck on route `R`. -/
def σtC1 : Assignment := fun k => if k = "RT" then 1 else 0

/-- Network for the C2/C9 key collision: route keys `A`, `A1` and truck
keys `B2`, `1B2` make `A1 + B2 = A + 1B2`. -/
def dC2 : NetworkData :=
  ⟨[], [], [],
   [("A", ⟨"X", "Y", 1⟩), ("A1", ⟨"X", "Y", 1⟩)],
   [("B2", ⟨1, 1, 1, 1⟩), ("1B2", ⟨1, 1, 1, 1⟩)], []⟩

/-- First ordering of the C9 network: colliding truck-route keys, truck
`B2` has capacity `0`, truck `1B2` capacity `5`. -/
def d91 : NetworkData :=
  ⟨[("P0", ⟨100⟩)], [("U0", ⟨0⟩)], [],
   [("A", ⟨"P0", "U0", 0⟩), ("A1", ⟨"P0", "U0", 0⟩)],
   [("B2", ⟨0, 0, 0, 1⟩), ("1B2", ⟨0, 0, 5, 1⟩)], [("V", ⟨9⟩)]⟩

/-- The same network with the truck collection iterated in the other
order. -/
def d92 : NetworkData :=
  ⟨[("P0", ⟨100⟩)], [("U0", ⟨0⟩)], [],
   [("A", ⟨"P0", "U0", 0⟩), ("A1", ⟨"P0", "U0", 0⟩)],
   [("1B2", ⟨0, 0, 5, 1⟩), ("B2", ⟨0, 0, 0, 1⟩)], [("V", ⟨9⟩)]⟩

/-- Commodity flows for the C9 separation: five units on route `A`. -/
def σq9 : Assignment := fun k => if k = "AVU0P0" then 5 else 0

/-- Truck counts for the C9 separation: one truck under the collided key
`A1B2`. -/
def σt9 : Assignment := fun k => if k = "A1B2" then 1 else 0

/-- Simplified-variant network for the C5 counterexample: route key `A` is
a substring of the key `ABT` of the pair (`AB`, `T`). -/
def dC5s : NetworkData :=
  ⟨[], [], [],
   [("A", ⟨"X", "Y", 1⟩), ("AB", ⟨"X", "Y", 1⟩)],
   [("T", ⟨1, 1, 10, 1⟩)], []⟩

/-- One unit of flow on route `A`. -/
def σv5 : Assignment := fun k => if k = "A" then 1 else 0

/-- One truck on the pair (`AB`, `T`) and none on (`A`, `T`). -/
def σt5 : Assignment := fun k => if k = "ABT" then 1 else 0

/-- Network for the C7 witness: its only truck type has zero speed. -/
def d7 : NetworkData :=
  ⟨[("A", ⟨0⟩)], [("P", ⟨0⟩)], [],
   [("R", ⟨"A", "P", 1⟩)], [("T0", ⟨1, 1, 10, 0⟩)], [("V", ⟨5⟩)]⟩

/-- Input document for the C8 counterexample: all six sections present, but
the single route references the undefined node keys `X` and `Y`. -/
def docC8 : RawDoc :=
  ⟨some [("A0", ⟨1⟩)], some [("P0", ⟨0⟩)], some [],
   some [("R", ⟨"X", "Y", 1⟩)], some [("T", ⟨1, 1, 1, 1⟩)], some [("V", ⟨1⟩)]⟩

/-- The network that `load_model_objects` returns for `docC8`. -/
def dC8res : NetworkData :=
  ⟨[("A0", ⟨1⟩)], [("P0", ⟨0⟩)], [],
   [("R", ⟨"X", "Y", 1⟩)], [("T", ⟨1, 1, 1, 1⟩)], [("V", ⟨1⟩)]⟩

/-- A solver stub that always reports infeasibility. -/
def solverNone : List ConsB → (Assignment → ℚ) → Option (Assignment × Assignment) :=
  fun _ _ => none

/-! ## Dictionary lemmas -/

theorem dlookup_dinsert {α : Type} (k k' : Key) (v' : α) (d : List (Key × α)) :
    dlookup k (dinsert k' v' d) = if k = k' then some v' else dlookup k d := by
  induction d with
  | nil => simp [dinsert, dlookup]
  | cons kv rest ih =>
    by_cases h1 : k' = kv.1
    · have h2 : (k = k') ↔ (k = kv.1) := by rw [h1]
      simp only [dinsert, if_pos h1, dlookup]
      by_cases h3 : k = kv.1
      · rw [if_pos h3, if_pos (h2.mpr h3)]
      · rw [if_neg h3, if_neg (fun h => h3 (h2.mp h)), if_neg h3]
    · simp only [dinsert, if_neg h1, dlookup, ih]
      by_cases h3 : k = kv.1
      · have h4 : k ≠ k' := fun h => h1 (h.symm.trans h3)
        rw [if_pos h3, if_neg h4, if_pos h3]
      · rw [if_neg h3, if_neg h3]

theorem dictOf_concat {α : Type} (l : List (Key × α)) (kv : Key × α) :
    dictOf (l ++ [kv]) = dinsert kv.1 kv.2 (dictOf l) := by
  simp [dictOf, List.foldl_append]

theorem dlookup_dictOf {α : Type} (k : Key) (l : List (Key × α)) :
    dlookup k (dictOf l) = dlookup k l.reverse := by
  induction l using List.reverseRecOn with
  | nil => rfl
  | append_singleton l kv ih =>
    rw [dictOf_concat, dlookup_dinsert, List.reverse_append]
    simp [dlookup, ih]

theorem dlookup_mem {α : Type} {k : Key} {v : α} {m : List (Key × α)}
    (h : dlookup k m = some v) : (k, v) ∈ m := by
  induction m with
  | nil => simp [dlookup] at h
  | cons kv rest ih =>
    by_cases hk : k = kv.1
    · rw [dlookup, if_pos hk] at h
      obtain rfl := Option.some.inj h
      simp [hk]
    · rw [dlookup, if_neg hk] at h
      exact List.mem_cons_of_mem _ (ih h)

theorem dlookup_isSome_iff {α : Type} (k : Key) (m : List (Key × α)) :
    (dlookup k m).isSome = true ↔ k ∈ dkeys m := by
  induction m with
  | nil => simp [dlookup, dkeys]
  | cons kv rest ih => by_cases hk : k = kv.1 <;> simp [dlookup, dkeys, hk, ih]

theorem dlookup_eq_of_mem_nodup {α : Type} {k : Key} {v : α} {m : List (Key × α)}
    (hn : (dkeys m).Nodup) (h : (k, v) ∈ m) : dlookup k m = some v := by
  induction m with
  | nil => simp at h
  | cons kv rest ih =>
    rcases List.mem_cons.mp h with h1 | h1
    · rw [← h1]; simp [dlookup]
    · have hmemk : k ∈ dkeys rest := List.mem_map.mpr ⟨(k, v), h1, rfl⟩
      have hn' := List.nodup_cons.mp
        (show (kv.1 :: dkeys rest).Nodup from hn)
      have hk : k ≠ kv.1 := fun he => hn'.1 (he ▸ hmemk)
      simp [dlookup, hk, ih hn'.2 h1]

theorem mem_dkeys_dinsert {α : Type} (x k : Key) (v : α) (d : List (Key × α)) :
    x ∈ dkeys (dinsert k v d) ↔ x ∈ dkeys d ∨ x = k := by
  induction d with
  | nil => simp [dinsert, dkeys]
  | cons kv rest ih =>
    by_cases hk : k = kv.1
    · have he : dinsert k v (kv :: rest) = (kv.1, v) :: rest := by
        simp [dinsert, hk]
      rw [he]
      show x ∈ kv.1 :: dkeys rest ↔ x ∈ kv.1 :: dkeys rest ∨ x = k
      constructor
      · exact Or.inl
      · rintro (h | rfl)
        · exact h
        · rw [hk]; exact List.mem_cons_self _ _
    · have he : dinsert k v (kv :: rest) = kv :: dinsert k v rest := by
        simp [dinsert, hk]
      rw [he]
      show x ∈ kv.1 :: dkeys (dinsert k v rest) ↔ x ∈ kv.1 :: dkeys rest ∨ x = k
      simp only [List.mem_cons, ih]
      tauto

theorem nodup_dkeys_dinsert {α : Type} (k : Key) (v : α) {d : List (Key × α)}
    (h : (dkeys d).Nodup) : (dkeys (dinsert k v d)).Nodup := by
  induction d with
  | nil => simp [dinsert, dkeys]
  | cons kv rest ih =>
    have h' := List.nodup_cons.mp (show (kv.1 :: dkeys rest).Nodup from h)
    by_cases hk : k = kv.1
    · have he : dinsert k v (kv :: rest) = (kv.1, v) :: rest := by
        simp [dinsert, hk]
      rw [he]
      exact (show (kv.1 :: dkeys rest).Nodup from h)
    · have hrest := ih h'.2
      have he : dinsert k v (kv :: rest) = kv :: dinsert k v rest := by
        simp [dinsert, hk]
      rw [he]
      show (kv.1 :: dkeys (dinsert k v rest)).Nodup
      refine List.nodup_cons.mpr ⟨?_, hrest⟩
      intro hmem
      rcases (mem_dkeys_dinsert kv.1 k v rest).mp hmem with h2 | h2
      · exact h'.1 h2
      · exact hk h2.symm

theorem nodup_dkeys_dictOf {α : Type} (l : List (Key × α)) :
    (dkeys (dictOf l)).Nodup := by
  induction l using List.reverseRecOn with
  | nil => simp [dictOf, dkeys]
  | append_singleton l kv ih => rw [dictOf_concat]; exact nodup_dkeys_dinsert _ _ ih

theorem mem_of_mem_dictOf {α : Type} {kv : Key × α} {l : List (Key × α)}
    (h : kv ∈ dictOf l) : kv ∈ l := by
  cases kv with
  | mk k v =>
    have h1 : dlookup k (dictOf l) = some v :=
      dlookup_eq_of_mem_nodup (nodup_dkeys_dictOf l) h
    rw [dlookup_dictOf] at h1
    exact List.mem_reverse.mp (dlookup_mem h1)

theorem mem_dictOf_of_mem_nodup {α : Type} {kv : Key × α} {l : List (Key × α)}
    (hn : (dkeys l).Nodup) (h : kv ∈ l) : kv ∈ dictOf l := by
  cases kv with
  | mk k v =>
    have hnr : (dkeys l.reverse).Nodup := by
      have : dkeys l.reverse = (dkeys l).reverse := by
        simp [dkeys, List.map_reverse]
      rw [this]
      exact List.nodup_reverse.mpr hn
    have h1 : dlookup k l.reverse = some v :=
      dlookup_eq_of_mem_nodup hnr (List.mem_reverse.mpr h)
    rw [← dlookup_dictOf] at h1
    exact dlookup_mem h1

theorem dlookup_map_val {α β : Type} (f : Key → α → β) (l : List (Key × α)) (k : Key) :
    dlookup k (l.map fun kv => (kv.1, f kv.1 kv.2)) = (dlookup k l).map (f k) := by
  induction l with
  | nil => simp [dlookup]
  | cons kv rest ih => by_cases hk : k = kv.1 <;> simp [dlookup, hk, ih]

theorem dlookup_dictOf_map_val {α β : Type} (f : Key → α → β)
    (l : List (Key × α)) (k : Key) :
    dlookup k (dictOf (l.map fun kv => (kv.1, f kv.1 kv.2))) =
      (dlookup k (dictOf l)).map (f k) := by
  rw [dlookup_dictOf, dlookup_dictOf, ← List.map_reverse, dlookup_map_val]

theorem mem_dkeys_iff_exists {α : Type} (k : Key) (m : List (Key × α)) :
    k ∈ dkeys m ↔ ∃ v, (k, v) ∈ m := by
  constructor
  · intro h
    rcases List.mem_map.mp h with ⟨kv, hm, he⟩
    exact ⟨kv.2, by cases kv; cases he; exact hm⟩
  · rintro ⟨v, hv⟩
    exact List.mem_map.mpr ⟨(k, v), hv, rfl⟩

theorem mem_dkeys_dictOf {α : Type} (k : Key) (l : List (Key × α)) :
    k ∈ dkeys (dictOf l) ↔ k ∈ dkeys l := by
  rw [← dlookup_isSome_iff, dlookup_dictOf, dlookup_isSome_iff]
  simp [dkeys, List.map_reverse]

/-! ## Arithmetic helper lemmas -/

theorem qsum_cons (x : ℚ) (xs : List ℚ) : qsum (x :: xs) = x + qsum xs := rfl

theorem qsum_nonneg {l : List ℚ} (h : ∀ x ∈ l, 0 ≤ x) : 0 ≤ qsum l := by
  induction l with
  | nil => simp [qsum]
  | cons x xs ih =>
    rw [qsum_cons]
    have hx := h x (List.mem_cons_self _ _)
    have hxs := ih fun y hy => h y (List.mem_cons_of_mem _ hy)
    linarith

theorem single_le_qsum {a : ℚ} {l : List ℚ} (ha : a ∈ l) (h : ∀ x ∈ l, 0 ≤ x) :
    a ≤ qsum l := by
  induction l with
  | nil => simp at ha
  | cons x xs ih =>
    rw [qsum_cons]
    rcases List.mem_cons.mp ha with rfl | ha'
    · have := qsum_nonneg fun y hy => h y (List.mem_cons_of_mem _ hy)
      linarith
    · have hx := h x (List.mem_cons_self _ _)
      have := ih ha' fun y hy => h y (List.mem_cons_of_mem _ hy)
      linarith

theorem le_listMax_of_mem {a : ℚ} {l : List ℚ} (h : a ∈ l) : a ≤ listMax l := by
  induction l with
  | nil => simp at h
  | cons x xs ih =>
    cases xs with
    | nil =>
      rcases List.mem_cons.mp h with rfl | h'
      · exact le_of_eq rfl
      · simp at h'
    | cons y ys =>
      rcases List.mem_cons.mp h with rfl | h'
      · exact le_max_left _ _
      · exact le_trans (ih h') (le_max_right _ _)

theorem listMax_nonneg {l : List ℚ} (h : ∀ x ∈ l, 0 ≤ x) : 0 ≤ listMax l := by
  cases l with
  | nil => simp [listMax]
  | cons x xs =>
    exact le_trans (h x (List.mem_cons_self _ _))
      (le_listMax_of_mem (List.mem_cons_self _ _))

/-! ## Structural lemmas about the index spaces -/

theorem truckRouteRaw_eq_map (d : NetworkData) :
    truckRouteRaw d = (truckRouteProd d).map fun kv =>
      (kv.1, (⟨kv.2.1.1, kv.2.2.1⟩ : TruckRoutePair)) := by
  unfold truckRouteRaw truckRouteProd
  rw [List.map_flatMap]
  congr 1
  funext t
  rw [List.map_map]
  rfl

theorem truckRouteTimesRaw_eq_map (d : NetworkData) :
    truckRouteTimesRaw d = (truckRouteProd d).map fun kv =>
      (kv.1, route_time_for_truck kv.2.1.2 kv.2.2.2) := by
  unfold truckRouteTimesRaw truckRouteProd
  rw [List.map_flatMap]
  congr 1
  funext t
  rw [List.map_map]
  rfl

theorem dlookup_map_pair {α β : Type} (g : Key × α → β) (l : List (Key × α)) (k : Key) :
    dlookup k (l.map fun kv => (kv.1, g kv)) = (dlookup k l).map fun v => g (k, v) := by
  induction l with
  | nil => simp [dlookup]
  | cons kv rest ih => by_cases hk : k = kv.1 <;> simp [dlookup, hk, ih]

theorem trc_lookup_eq (d : NetworkData) (k : Key) :
    dlookup k (truck_route_combinations d) =
      (dlookup k (dictOf (truckRouteProd d))).map
        fun w => (⟨w.1.1, w.2.1⟩ : TruckRoutePair) := by
  unfold truck_route_combinations
  rw [truckRouteRaw_eq_map, dlookup_dictOf, dlookup_dictOf, ← List.map_reverse]
  exact dlookup_map_pair
    (fun kv : Key × ((Key × Route) × (Key × TruckType)) =>
      (⟨kv.2.1.1, kv.2.2.1⟩ : TruckRoutePair)) _ k

theorem trt_lookup_eq (d : NetworkData) (k : Key) :
    dlookup k (truck_route_times d) =
      (dlookup k (dictOf (truckRouteProd d))).map
        fun w => route_time_for_truck w.1.2 w.2.2 := by
  unfold truck_route_times
  rw [truckRouteTimesRaw_eq_map, dlookup_dictOf, dlookup_dictOf, ← List.map_reverse]
  exact dlookup_map_pair
    (fun kv : Key × ((Key × Route) × (Key × TruckType)) =>
      route_time_for_truck kv.2.1.2 kv.2.2.2) _ k

theorem trc_lookup_decompose (d : NetworkData) {kz : Key} {pz : TruckRoutePair}
    (h : dlookup kz (truck_route_combinations d) = some pz) :
    ∃ rkv ∈ d.routes, ∃ tkv ∈ d.truck_types,
      kz = rkv.1 ++ tkv.1 ∧ pz = ⟨rkv.1, tkv.1⟩ ∧
      dlookup kz (truck_route_times d) = some (route_time_for_truck rkv.2 tkv.2) := by
  rw [trc_lookup_eq] at h
  rcases Option.map_eq_some'.mp h with ⟨w, hw, hpz⟩
  have hmem : (kz, w) ∈ truckRouteProd d := by
    rw [dlookup_dictOf] at hw
    exact List.mem_reverse.mp (dlookup_mem hw)
  have hmem' := hmem
  unfold truckRouteProd at hmem'
  rw [List.mem_flatMap] at hmem'
  rcases hmem' with ⟨tkv, htk, hin⟩
  rw [List.mem_map] at hin
  rcases hin with ⟨rkv, hrk, heq⟩
  have hkz : kz = rkv.1 ++ tkv.1 := by
    have := congrArg Prod.fst heq
    simpa using this.symm
  have hwval : w = (rkv, tkv) := by
    have := congrArg Prod.snd heq
    simpa using this.symm
  refine ⟨rkv, hrk, tkv, htk, hkz, ?_, ?_⟩
  · rw [← hpz, hwval]
  · rw [trt_lookup_eq, hw, hwval]
    simp

theorem vaccine_travel_times_lookup (d : NetworkData) (σt : Assignment) (k : Key) :
    dlookup k (vaccine_travel_times d σt) =
      (dlookup k (vaccine_point_combinations d)).map
        fun vpa => commodity_travel_time d σt (routesFor d vpa) := by
  unfold vaccine_travel_times vaccine_point_routes
  rw [List.map_map]
  exact dlookup_map_val
    (fun _ vpa => commodity_travel_time d σt (routesFor d vpa))
    (vaccine_point_combinations d) k

/-! ## Claim theorems -/

/-- C6: the travel-time helper is total and never divides by zero: with a
non-zero average speed it returns `distance / avgSpeed`, and with a zero
average speed it returns the sentinel `10e100` instead of dividing. -/
theorem c6_route_time_total (route : Route) (truck : TruckType) :
    (truck.avgSpeed = 0 → route_time_for_truck route truck = 10 * 10 ^ 100) ∧
    (truck.avgSpeed ≠ 0 →
      route_time_for_truck route truck = route.distance / truck.avgSpeed) := by
  constructor
  · intro h; simp [route_time_for_truck, h]
  · intro h; simp [route_time_for_truck, h]

/-- Witness for C6 at two concrete inputs: a zero-speed truck yields the
sentinel, a speed-3 truck on a distance-6 route yields `6 / 3`. -/
theorem c6_route_time_total_witness :
    ((0 : ℚ) = 0 ∧
      route_time_for_truck ⟨"a", "b", 6⟩ ⟨0, 0, 0, 0⟩ = 10 * 10 ^ 100) ∧
    ((3 : ℚ) ≠ 0 ∧
      route_time_for_truck ⟨"a", "b", 6⟩ ⟨0, 0, 0, 3⟩ = 6 / 3) :=
  ⟨⟨rfl, (c6_route_time_total ⟨"a", "b", 6⟩ ⟨0, 0, 0, 0⟩).1 rfl⟩,
   ⟨by norm_num, (c6_route_time_total ⟨"a", "b", 6⟩ ⟨0, 0, 0, 3⟩).2 (by norm_num)⟩⟩

/-- C10: the advanced `prepare_data` returns a pair of the objective and a
list of exactly one reporting callback (not a bare linear expression), and
the driver invokes the callbacks only when the solver produced a
solution. -/
theorem c10_prepare_data_shape (d : NetworkData) :
    (prepare_data d).2.length = 1 ∧
    (∀ solver, solver (prepare_data_constraints d) (prepare_data d).1 = none →
      run_main d solver = none) ∧
    (∀ solver σq σt,
      solver (prepare_data_constraints d) (prepare_data d).1 = some (σq, σt) →
      run_main d solver = some ((prepare_data d).2.map fun cb => cb σt)) := by
  refine ⟨rfl, ?_, ?_⟩
  · intro solver h
    unfold run_main
    rw [h]
  · intro solver σq σt h
    unfold run_main
    rw [h]

/-- Witness for C10: on the concrete network `dW` the callback list has
length one, and with an infeasibility-reporting solver no callback runs. -/
theorem c10_prepare_data_shape_witness :
    (prepare_data dW).2.length = 1 ∧ run_main dW solverNone = none :=
  ⟨(c10_prepare_data_shape dW).1,
   (c10_prepare_data_shape dW).2.1 solverNone rfl⟩

/-- C8 counterexample: the loader accepts a document whose only route
references the node keys `X` and `Y`, which are defined in no node section;
no failure occurs, contradicting the claimed dangling-reference check. -/
theorem c8_loader_counterexample :
    load_model_objects docC8 = Except.ok dC8res ∧
    dC8res.routes = [("R", ⟨"X", "Y", 1⟩)] ∧
    "X" ∉ dkeys dC8res.airports ∧ "X" ∉ dkeys dC8res.warehouses ∧
    "X" ∉ dkeys dC8res.vaccination_points ∧
    "Y" ∉ dkeys dC8res.airports ∧ "Y" ∉ dkeys dC8res.warehouses ∧
    "Y" ∉ dkeys dC8res.vaccination_points := by
  refine ⟨rfl, rfl, ?_, ?_, ?_, ?_, ?_, ?_⟩ <;> decide

/-- C8 (amended): the loader fails exactly when one of the six required
top-level sections is missing; route endpoint references are not
validated. -/
theorem c8_loader_ok_iff (doc : RawDoc) :
    (∃ nd, load_model_objects doc = Except.ok nd) ↔
      (doc.airports.isSome ∧ doc.vaccinationPoints.isSome ∧
       doc.warehouses.isSome ∧ doc.routes.isSome ∧
       doc.trucks.isSome ∧ doc.vaccines.isSome) := by
  rcases doc with ⟨a, vp, wh, r, t, v⟩
  cases a <;> cases vp <;> cases wh <;> cases r <;> cases t <;> cases v <;>
    simp [load_model_objects]

/-- C2 counterexample: with route keys `A`, `A1` and truck keys `B2`,
`1B2`, the two distinct pairs (`A1`, `B2`) and (`A`, `1B2`) concatenate to
the same key `A1B2`; the comprehension generates four pairs but the dict
retains three entries and keeps only the last-written decomposition, with
no error of any kind: there is no collision check in the code. -/
theorem c2_key_collision_counterexample :
    ((("A1" : Key), ("B2" : Key)) ≠ (("A" : Key), ("1B2" : Key))) ∧
    ("A1" ++ "B2" : Key) = "A" ++ "1B2" ∧
    (truckRouteRaw dC2).length = 4 ∧
    (truck_route_combinations dC2).length = 3 ∧
    dlookup "A1B2" (truck_route_combinations dC2) = some ⟨"A", "1B2"⟩ := by
  refine ⟨by decide, by decide, by decide, by decide, by decide⟩

/-- C2 (amended): when the concatenated key sequences are duplicate-free,
the composite keys are injective on the generated pairs and every pair is
recoverable from its key by lookup, for all three key spaces; colliding
keys, however, are silently overwritten (see the counterexample), not
detected. -/
theorem c2_structured_keys (d : NetworkData)
    (htr : (dkeys (truckRouteRaw d)).Nodup)
    (hvpa : (dkeys (vpaRaw d)).Nodup)
    (hrvpa : (dkeys (rvpaRaw d)).Nodup) :
    (∀ kv ∈ truckRouteRaw d, ∀ kv' ∈ truckRouteRaw d, kv.1 = kv'.1 → kv = kv') ∧
    (∀ kv ∈ truckRouteRaw d, dlookup kv.1 (truck_route_combinations d) = some kv.2) ∧
    (∀ kv ∈ vpaRaw d, ∀ kv' ∈ vpaRaw d, kv.1 = kv'.1 → kv = kv') ∧
    (∀ kv ∈ vpaRaw d, dlookup kv.1 (vaccine_point_combinations d) = some kv.2) ∧
    (∀ kv ∈ rvpaRaw d, ∀ kv' ∈ rvpaRaw d, kv.1 = kv'.1 → kv = kv') ∧
    (∀ kv ∈ rvpaRaw d, dlookup kv.1 (route_vaccine_point_combinations d) = some kv.2) := by
  refine ⟨?_, ?_, ?_, ?_, ?_, ?_⟩
  · exact fun kv hm kv' hm' he => List.inj_on_of_nodup_map htr hm hm' he
  · intro kv hm
    exact dlookup_eq_of_mem_nodup (nodup_dkeys_dictOf _)
      (mem_dictOf_of_mem_nodup htr hm)
  · exact fun kv hm kv' hm' he => List.inj_on_of_nodup_map hvpa hm hm' he
  · intro kv hm
    exact dlookup_eq_of_mem_nodup (nodup_dkeys_dictOf _)
      (mem_dictOf_of_mem_nodup hvpa hm)
  · exact fun kv hm kv' hm' he => List.inj_on_of_nodup_map hrvpa hm hm' he
  · intro kv hm
    exact dlookup_eq_of_mem_nodup (nodup_dkeys_dictOf _)
      (mem_dictOf_of_mem_nodup hrvpa hm)

/-- Witness for C2 on the concrete duplicate-free network `dW`: the pair
(`R1`, `T`) is recovered from its key. -/
theorem c2_structured_keys_witness :
    (dkeys (truckRouteRaw dW)).Nodup ∧
    dlookup "R1T" (truck_route_combinations dW) = some ⟨"R1", "T"⟩ :=
  ⟨by decide,
   (c2_structured_keys dW (by decide) (by decide) (by decide)).2.1
     ("R1T", ⟨"R1", "T"⟩) (by decide)⟩

/-- Congruence for the guarded sums used by the constraint expressions:
elements failing the guard contribute nothing, so two value functions that
agree on the guarded elements give the same filtered list. -/
theorem filterMap_if_congr {α β : Type} (P : α → Prop) [DecidablePred P]
    (F G : α → β) (l : List α) (h : ∀ x ∈ l, P x → F x = G x) :
    (l.filterMap fun x => if P x then some (F x) else none) =
      (l.filterMap fun x => if P x then some (G x) else none) := by
  induction l with
  | nil => rfl
  | cons x xs ih =>
    simp only [List.filterMap_cons]
    by_cases hp : P x
    · rw [if_pos hp, if_pos hp, h x (List.mem_cons_self _ _) hp,
        ih fun y hy hpy => h y (List.mem_cons_of_mem _ hy) hpy]
    · rw [if_neg hp, if_neg hp,
        ih fun y hy hpy => h y (List.mem_cons_of_mem _ hy) hpy]

/-- C3: for every warehouse and every commodity the model contains the
equality constraint between inbound and outbound commodity flow at that
warehouse, and every assignment satisfying the emitted constraints
conserves the commodity there exactly. -/
theorem c3_warehouse_conservation (d : NetworkData) (w : Key) (wu : Unit)
    (hw : (w, wu) ∈ d.warehouses) (k : Key) (vpa : Commodity)
    (hk : (k, vpa) ∈ vaccine_point_combinations d) :
    warehouse_constraint d w k ∈ prepare_data_constraints d ∧
    ∀ σq σt, (∀ c ∈ prepare_data_constraints d, c σq σt = true) →
      wh_in_sum d σq w k = wh_out_sum d σq w k := by
  have hmem : warehouse_constraint d w k ∈ warehouse_constraints d := by
    unfold warehouse_constraints
    rw [List.mem_flatMap]
    exact ⟨(w, wu), hw, List.mem_map.mpr ⟨(k, vpa), hk, rfl⟩⟩
  have hmem2 : warehouse_constraint d w k ∈ prepare_data_constraints d := by
    unfold prepare_data_constraints
    simp only [List.mem_append]
    tauto
  exact ⟨hmem2, fun σq σt hsat => of_decide_eq_true (hsat _ hmem2)⟩

/-- Witness for C3 on `dW`: the all-zero assignment satisfies every emitted
constraint, and flow through the warehouse `W` is conserved. -/
theorem c3_warehouse_conservation_witness :
    (("W", ()) ∈ dW.warehouses) ∧
    wh_in_sum dW σ0 "W" "VPA" = wh_out_sum dW σ0 "W" "VPA" :=
  ⟨by decide,
   (c3_warehouse_conservation dW "W" () (by decide) "VPA" ⟨"V", "P", "A"⟩
     (by decide)).2 σ0 σ0 (List.all_eq_true.mp (by with_unfolding_all rfl))⟩

/-- C4: for every airport the model contains the delivery-cap constraint on
its outbound commodity flow, and for every vaccination point the demand
constraint on its inbound destined flow; satisfying assignments obey both
bounds. -/
theorem c4_cap_and_demand (d : NetworkData) :
    (∀ a av, (a, av) ∈ d.airports →
      airport_cap_constraint d a av.deliveryAmount ∈ prepare_data_constraints d ∧
      ∀ σq σt, (∀ c ∈ prepare_data_constraints d, c σq σt = true) →
        airport_out_sum d σq a ≤ av.deliveryAmount) ∧
    (∀ p pv, (p, pv) ∈ d.vaccination_points →
      demand_constraint d p pv.demand ∈ prepare_data_constraints d ∧
      ∀ σq σt, (∀ c ∈ prepare_data_constraints d, c σq σt = true) →
        demand_sum d σq p ≥ pv.demand) := by
  constructor
  · intro a av ha
    have hmem : airport_cap_constraint d a av.deliveryAmount ∈
        prepare_data_constraints d := by
      unfold prepare_data_constraints
      simp only [List.mem_append]
      have : airport_cap_constraint d a av.deliveryAmount ∈
          airport_cap_constraints d := by
        unfold airport_cap_constraints
        exact List.mem_map.mpr ⟨(a, av), ha, rfl⟩
      tauto
    exact ⟨hmem, fun σq σt hsat => of_decide_eq_true (hsat _ hmem)⟩
  · intro p pv hp
    have hmem : demand_constraint d p pv.demand ∈ prepare_data_constraints d := by
      unfold prepare_data_constraints
      simp only [List.mem_append]
      have : demand_constraint d p pv.demand ∈ demand_constraints d := by
        unfold demand_constraints
        exact List.mem_map.mpr ⟨(p, pv), hp, rfl⟩
      tauto
    exact ⟨hmem, fun σq σt hsat => of_decide_eq_true (hsat _ hmem)⟩

/-- Witness for C4 on `dW` with the all-zero assignment: delivery cap and
demand bound both hold. -/
theorem c4_cap_and_demand_witness :
    (("A", (⟨100⟩ : Airport)) ∈ dW.airports) ∧
    airport_out_sum dW σ0 "A" ≤ 100 ∧ demand_sum dW σ0 "P" ≥ 0 :=
  ⟨by decide,
   ((c4_cap_and_demand dW).1 "A" ⟨100⟩ (by decide)).2 σ0 σ0
     (List.all_eq_true.mp (by with_unfolding_all rfl)),
   ((c4_cap_and_demand dW).2 "P" ⟨0⟩ (by decide)).2 σ0 σ0
     (List.all_eq_true.mp (by with_unfolding_all rfl))⟩

/-- C5 (amended, advanced variant): for every route the model contains the
capacity constraint; satisfying assignments provide at least the carried
quantity in truck capacity; and the capacity sum depends only on the counts
of pairs whose route component equals the route — pairs of other routes
contribute nothing.  (In the simplified variant this fails; see the
counterexample.) -/
theorem c5_capacity_exact (d : NetworkData) (r : Key) (rv : Route)
    (hr : (r, rv) ∈ d.routes) :
    capacity_constraint d r ∈ prepare_data_constraints d ∧
    (∀ σq σt, (∀ c ∈ prepare_data_constraints d, c σq σt = true) →
      route_capacity_sum d σt r ≥ route_quantity_sum d σq r) ∧
    (∀ σt σt', (∀ kv ∈ truck_route_combinations d, kv.2.route = r →
        σt kv.1 = σt' kv.1) →
      route_capacity_sum d σt r = route_capacity_sum d σt' r) := by
  have hmem : capacity_constraint d r ∈ prepare_data_constraints d := by
    unfold prepare_data_constraints
    simp only [List.mem_append]
    have : capacity_constraint d r ∈ capacity_constraints d := by
      unfold capacity_constraints
      exact List.mem_map.mpr ⟨(r, rv), hr, rfl⟩
    tauto
  refine ⟨hmem, fun σq σt hsat => of_decide_eq_true (hsat _ hmem), ?_⟩
  intro σt σt' hagree
  unfold route_capacity_sum
  congr 1
  exact filterMap_if_congr (fun kv => kv.2.route = r)
    (fun kv => (σt kv.1 : ℚ) * (truckOf d kv.2.truck).maxCapacity)
    (fun kv => (σt' kv.1 : ℚ) * (truckOf d kv.2.truck).maxCapacity)
    (truck_route_combinations d)
    (fun kv hkv hroute => by simp only [hagree kv hkv hroute])

/-- Witness for C5 on `dW` with the all-zero assignment, and invariance of
the capacity sum of route `R1` under a change off route `R1`. -/
theorem c5_capacity_exact_witness :
    ((("R1" : Key), (⟨"A", "W", 4⟩ : Route)) ∈ dW.routes) ∧
    route_capacity_sum dW σ0 "R1" ≥ route_quantity_sum dW σ0 "R1" ∧
    route_capacity_sum dW σ0 "R1" = route_capacity_sum dW (fun k => if k = "R2T" then 7 else 0) "R1" :=
  ⟨by decide,
   (c5_capacity_exact dW "R1" ⟨"A", "W", 4⟩ (by decide)).2.1 σ0 σ0
     (List.all_eq_true.mp (by with_unfolding_all rfl)),
   (c5_capacity_exact dW "R1" ⟨"A", "W", 4⟩ (by decide)).2.2 σ0
     (fun k => if k = "R2T" then 7 else 0) (by decide)⟩

/-- C5 counterexample (simplified variant): with route keys `A` and `AB`,
the emitted capacity constraint for route `A` also counts the pair
(`AB`, `T`), whose route component is not `A`, because the source filters
with substring containment `r in tr`; two truck assignments agreeing on
every pair of route `A` evaluate the emitted constraint differently. -/
theorem c5_substring_capacity_counterexample :
    capacity_constraint_s dC5s "A" ∈ prepare_data_constraints_s dC5s ∧
    dlookup "ABT" (truck_route_combinations dC5s) = some ⟨"AB", "T"⟩ ∧
    (⟨"AB", "T"⟩ : TruckRoutePair).route ≠ "A" ∧
    σt5 "AT" = σ0 "AT" ∧
    capacity_constraint_s dC5s "A" σv5 σt5 = true ∧
    capacity_constraint_s dC5s "A" σv5 σ0 = false ∧
    capacity_sum_s dC5s σt5 "A" ≠ capacity_sum_s dC5s σ0 "A" := by
  refine ⟨?_, by decide, by decide, by decide, by with_unfolding_all decide,
    by with_unfolding_all decide, by with_unfolding_all decide⟩
  unfold prepare_data_constraints_s
  simp only [List.mem_append]
  have : capacity_constraint_s dC5s "A" ∈ capacity_constraints_s dC5s := by
    unfold capacity_constraints_s
    exact List.mem_map.mpr ⟨("A", ⟨"X", "Y", 1⟩), by decide, rfl⟩
  tauto

/-- C1 (amended): for every commodity the generator emits the shelf-life
constraint `travel time ≤ lifetime`, where the travel-time expression sums,
over all of the commodity's candidate routes, the maximum over the
truck-route pairs of that route of the pair's truck count clamped to
`{0, 1}` times the pair's travel time: the clamp applies to the truck-count
variable, not to the carried commodity quantity, and routes carrying zero
quantity of the commodity still contribute whenever trucks are assigned
there (see the counterexample against the spec's wording). -/
theorem c1_travel_time_emitted (d : NetworkData) (k : Key) (vpa : Commodity)
    (hk : (k, vpa) ∈ vaccine_point_combinations d) :
    shelf_constraint d k vpa.vaccine ∈ prepare_data_constraints d ∧
    dlookup k (vaccine_point_routes d) = some (routesFor d vpa) ∧
    (∀ σq σt, shelf_constraint d k vpa.vaccine σq σt =
      decide (commodity_travel_time d σt (routesFor d vpa) ≤
        (vaccineOf d vpa.vaccine).lifetime)) ∧
    (∀ σq σt, (∀ c ∈ prepare_data_constraints d, c σq σt = true) →
      commodity_travel_time d σt (routesFor d vpa) ≤
        (vaccineOf d vpa.vaccine).lifetime) := by
  have hck : dlookup k (vaccine_point_combinations d) = some vpa :=
    dlookup_eq_of_mem_nodup (nodup_dkeys_dictOf _) hk
  have hmem : shelf_constraint d k vpa.vaccine ∈ prepare_data_constraints d := by
    unfold prepare_data_constraints
    simp only [List.mem_append]
    have : shelf_constraint d k vpa.vaccine ∈ shelf_constraints d := by
      unfold shelf_constraints
      exact List.mem_map.mpr ⟨(k, vpa), hk, rfl⟩
    tauto
  have hvl : ∀ σt : Assignment,
      dlookup k (vaccine_travel_times d σt) =
        some (commodity_travel_time d σt (routesFor d vpa)) := by
    intro σt
    rw [vaccine_travel_times_lookup, hck]
    rfl
  have hshape : ∀ σq σt : Assignment, shelf_constraint d k vpa.vaccine σq σt =
      decide (commodity_travel_time d σt (routesFor d vpa) ≤
        (vaccineOf d vpa.vaccine).lifetime) := by
    intro σq σt
    unfold shelf_constraint
    rw [hvl σt]
    rfl
  refine ⟨hmem, ?_, hshape, ?_⟩
  · have hv : dlookup k (vaccine_point_routes d) =
        (dlookup k (vaccine_point_combinations d)).map
          fun v => routesFor d v := by
      unfold vaccine_point_routes
      exact dlookup_map_val (fun _ v => routesFor d v) _ k
    rw [hv, hck]
    rfl
  · intro σq σt hsat
    have hc := hsat _ hmem
    rw [hshape σq σt] at hc
    exact of_decide_eq_true hc

/-- Witness for C1 (amended) on `dW`: the commodity of key `VPA` is
emitted with its shelf-life constraint, and the all-zero assignment
respects it. -/
theorem c1_travel_time_emitted_witness :
    ((("VPA" : Key), (⟨"V", "P", "A"⟩ : Commodity)) ∈ vaccine_point_combinations dW) ∧
    commodity_travel_time dW σ0 (routesFor dW ⟨"V", "P", "A"⟩) ≤
      (vaccineOf dW "V").lifetime :=
  ⟨by decide,
   (c1_travel_time_emitted dW "VPA" ⟨"V", "P", "A"⟩ (by decide)).2.2.2 σ0 σ0
     (List.all_eq_true.mp (by with_unfolding_all rfl))⟩

/-- C1 counterexample: on `dC1` the commodity `VPA` carries zero quantity
on the only route `R` (the flow assignment is identically zero), yet the
code's travel-time expression evaluates to `5` because one truck is
assigned to `R`; the spec's formula, which clamps the carried commodity
quantity, evaluates to `0`.  The two expressions differ. -/
theorem c1_travel_time_spec_counterexample :
    dlookup "VPA" (vaccine_point_routes dC1) = some ["R"] ∧
    σ0 ("R" ++ "VPA") = 0 ∧
    (dlookup "VPA" (vaccine_travel_times dC1 σtC1)).getD 0 = 5 ∧
    commodity_travel_time_spec dC1 σ0 σtC1 "VPA" = 0 ∧
    (dlookup "VPA" (vaccine_travel_times dC1 σtC1)).getD 0 ≠
      commodity_travel_time_spec dC1 σ0 σtC1 "VPA" := by
  refine ⟨by with_unfolding_all decide, rfl, by with_unfolding_all decide,
    by with_unfolding_all decide, by with_unfolding_all decide⟩

/-- C9 (amended): model construction is a pure function of the ordered
input, and the decision-variable key sets are independent of the iteration
order of the input collections; the constraint set, however, is not
order-independent when concatenated composite keys collide (see the
counterexample). -/
theorem c9_variable_keys_order_independent (d1 d2 : NetworkData)
    (hroutes : d2.routes.Perm d1.routes)
    (htrucks : d2.truck_types.Perm d1.truck_types)
    (hvacc : d2.vaccine_types.Perm d1.vaccine_types)
    (hpts : d2.vaccination_points.Perm d1.vaccination_points)
    (haps : d2.airports.Perm d1.airports) :
    ∀ kk : Key,
      (kk ∈ dkeys (truck_route_combinations d1) ↔
        kk ∈ dkeys (truck_route_combinations d2)) ∧
      (kk ∈ dkeys (route_vaccine_point_combinations d1) ↔
        kk ∈ dkeys (route_vaccine_point_combinations d2)) := by
  have htrRaw : ∀ (dd : NetworkData) (kk : Key),
      kk ∈ dkeys (truckRouteRaw dd) ↔
        ∃ t ∈ dd.truck_types, ∃ r ∈ dd.routes, kk = r.1 ++ t.1 := by
    intro dd kk
    constructor
    · intro h
      rcases (mem_dkeys_iff_exists kk _).mp h with ⟨v, hv⟩
      unfold truckRouteRaw at hv
      rw [List.mem_flatMap] at hv
      rcases hv with ⟨t, ht, hin⟩
      rw [List.mem_map] at hin
      rcases hin with ⟨r, hr, he⟩
      refine ⟨t, ht, r, hr, ?_⟩
      have := congrArg Prod.fst he
      simpa using this.symm
    · rintro ⟨t, ht, r, hr, rfl⟩
      apply (mem_dkeys_iff_exists _ _).mpr
      refine ⟨⟨r.1, t.1⟩, ?_⟩
      unfold truckRouteRaw
      rw [List.mem_flatMap]
      exact ⟨t, ht, List.mem_map.mpr ⟨r, hr, rfl⟩⟩
  have hrvRaw : ∀ (dd : NetworkData) (kk : Key),
      kk ∈ dkeys (rvpaRaw dd) ↔
        ∃ v ∈ dd.vaccine_types, ∃ p ∈ dd.vaccination_points,
          ∃ a ∈ dd.airports, ∃ r ∈ dd.routes,
            kk = r.1 ++ v.1 ++ p.1 ++ a.1 := by
    intro dd kk
    constructor
    · intro h
      rcases (mem_dkeys_iff_exists kk _).mp h with ⟨w, hw⟩
      unfold rvpaRaw at hw
      rw [List.mem_flatMap] at hw
      rcases hw with ⟨v, hv, hw⟩
      rw [List.mem_flatMap] at hw
      rcases hw with ⟨p, hp, hw⟩
      rw [List.mem_flatMap] at hw
      rcases hw with ⟨a, ha, hw⟩
      rw [List.mem_map] at hw
      rcases hw with ⟨r, hr, he⟩
      refine ⟨v, hv, p, hp, a, ha, r, hr, ?_⟩
      have := congrArg Prod.fst he
      simpa using this.symm
    · rintro ⟨v, hv, p, hp, a, ha, r, hr, rfl⟩
      apply (mem_dkeys_iff_exists _ _).mpr
      refine ⟨⟨r.1, v.1, p.1, a.1⟩, ?_⟩
      unfold rvpaRaw
      rw [List.mem_flatMap]
      refine ⟨v, hv, ?_⟩
      rw [List.mem_flatMap]
      refine ⟨p, hp, ?_⟩
      rw [List.mem_flatMap]
      exact ⟨a, ha, List.mem_map.mpr ⟨r, hr, rfl⟩⟩
  intro kk
  constructor
  · show kk ∈ dkeys (dictOf (truckRouteRaw d1)) ↔
      kk ∈ dkeys (dictOf (truckRouteRaw d2))
    rw [mem_dkeys_dictOf, mem_dkeys_dictOf, htrRaw, htrRaw]
    constructor
    · rintro ⟨t, ht, r, hr, rfl⟩
      exact ⟨t, htrucks.mem_iff.mpr ht, r, hroutes.mem_iff.mpr hr, rfl⟩
    · rintro ⟨t, ht, r, hr, rfl⟩
      exact ⟨t, htrucks.mem_iff.mp ht, r, hroutes.mem_iff.mp hr, rfl⟩
  · show kk ∈ dkeys (dictOf (rvpaRaw d1)) ↔ kk ∈ dkeys (dictOf (rvpaRaw d2))
    rw [mem_dkeys_dictOf, mem_dkeys_dictOf, hrvRaw, hrvRaw]
    constructor
    · rintro ⟨v, hv, p, hp, a, ha, r, hr, rfl⟩
      exact ⟨v, hvacc.mem_iff.mpr hv, p, hpts.mem_iff.mpr hp,
        a, haps.mem_iff.mpr ha, r, hroutes.mem_iff.mpr hr, rfl⟩
    · rintro ⟨v, hv, p, hp, a, ha, r, hr, rfl⟩
      exact ⟨v, hvacc.mem_iff.mp hv, p, hpts.mem_iff.mp hp,
        a, haps.mem_iff.mp ha, r, hroutes.mem_iff.mp hr, rfl⟩

/-- Witness for C9 (amended): the truck collections of `d91` and `d92` are
permutations of each other, and the collided key `A1B2` lies in both
variable key sets. -/
theorem c9_variable_keys_witness :
    d92.truck_types.Perm d91.truck_types ∧
    ("A1B2" ∈ dkeys (truck_route_combinations d91) ↔
      "A1B2" ∈ dkeys (truck_route_combinations d92)) := by
  have hp : d92.truck_types.Perm d91.truck_types := by
    unfold d91 d92
    exact List.Perm.swap _ _ _
  exact ⟨hp, (c9_variable_keys_order_independent d91 d92 (List.Perm.refl _) hp
    (List.Perm.refl _) (List.Perm.refl _) (List.Perm.refl _) "A1B2").1⟩

/-- C9 counterexample: `d91` and `d92` hold identical collections — the
truck dictionary is merely iterated in a different order — yet one emitted
constraint set is satisfied by the assignment (`σq9`, `σt9`) and the other
is not: under the key collision `A1B2` the two builds disagree on the
decomposition of that key, so the capacity constraint of route `A` differs.
The generated models are not independent of iteration order. -/
theorem c9_order_dependence_counterexample :
    d92.airports = d91.airports ∧
    d92.vaccination_points = d91.vaccination_points ∧
    d92.warehouses = d91.warehouses ∧
    d92.routes = d91.routes ∧
    d92.vaccine_types = d91.vaccine_types ∧
    d92.truck_types.Perm d91.truck_types ∧
    dlookup "A1B2" (truck_route_combinations d91) = some ⟨"A", "1B2"⟩ ∧
    dlookup "A1B2" (truck_route_combinations d92) = some ⟨"A1", "B2"⟩ ∧
    (prepare_data_constraints d91).all (fun c => c σq9 σt9) = true ∧
    (prepare_data_constraints d92).all (fun c => c σq9 σt9) = false := by
  refine ⟨rfl, rfl, rfl, rfl, rfl, ?_, by decide, by decide,
    by with_unfolding_all rfl, by with_unfolding_all rfl⟩
  unfold d91 d92
  exact List.Perm.swap _ _ _

/-- C7: in a network whose vaccine lifetimes all lie below the sentinel
`10e100` (with duplicate-free keys, non-negative distances and speeds, and
at least one commodity), every assignment satisfying the emitted
constraints gives count zero to each zero-speed truck-route entry: a
positive count would push some commodity's travel-time expression to at
least the sentinel, violating that commodity's shelf-life constraint. -/
theorem c7_zero_speed_truck (d : NetworkData)
    (Htrucks : (dkeys d.truck_types).Nodup)
    (Hrvpa : (dkeys (rvpaRaw d)).Nodup)
    (Hlife : ∀ kv ∈ d.vaccine_types, kv.2.lifetime < 10 * 10 ^ 100)
    (Hdist : ∀ kv ∈ d.routes, 0 ≤ kv.2.distance)
    (Hspeed : ∀ kv ∈ d.truck_types, 0 ≤ kv.2.avgSpeed)
    (Hcomm : vaccine_point_combinations d ≠ [])
    (σq σt : Assignment)
    (Hsat : ∀ c ∈ prepare_data_constraints d, c σq σt = true)
    (kz : Key) (pz : TruckRoutePair)
    (Hkz : dlookup kz (truck_route_combinations d) = some pz)
    (Hzero : (truckOf d pz.truck).avgSpeed = 0) :
    σt kz = 0 := by
  rcases trc_lookup_decompose d Hkz with ⟨rkv, hrk, tkv, htk, hkzeq, hpz, htime⟩
  subst hpz
  have htof : truckOf d tkv.1 = tkv.2 := by
    unfold truckOf
    rw [dlookup_eq_of_mem_nodup Htrucks htk]
    rfl
  have hts : tkv.2.avgSpeed = 0 := by
    rw [← htof]
    exact Hzero
  have hsent : route_time_for_truck rkv.2 tkv.2 = 10 * 10 ^ 100 := by
    unfold route_time_for_truck
    rw [if_pos hts]
  have htimes : dlookup kz (truck_route_times d) = some (10 * 10 ^ 100) := by
    rw [htime, hsent]
  -- non-negativity of every travel-time term
  have htermsnn : ∀ r' : Key, ∀ x ∈ trTerms d σt r', (0 : ℚ) ≤ x := by
    intro r' x hx
    unfold trTerms at hx
    rw [List.mem_filterMap] at hx
    rcases hx with ⟨kv, hkv, hval⟩
    by_cases hc : kv.2.route = r'
    · rw [if_pos hc] at hval
      obtain rfl := Option.some.inj hval
      apply mul_nonneg (Nat.cast_nonneg _)
      cases hl : dlookup kv.1 (truck_route_times d) with
      | none => simp
      | some tval =>
        simp only [Option.getD_some]
        have hmem := dlookup_mem hl
        unfold truck_route_times at hmem
        have hmemraw := mem_of_mem_dictOf hmem
        unfold truckRouteTimesRaw at hmemraw
        rw [List.mem_flatMap] at hmemraw
        rcases hmemraw with ⟨t, ht, hin⟩
        rw [List.mem_map] at hin
        rcases hin with ⟨r0, hr0, he⟩
        have hval2 : tval = route_time_for_truck r0.2 t.2 := by
          have := congrArg Prod.snd he
          simpa using this.symm
        rw [hval2]
        unfold route_time_for_truck
        by_cases hs : t.2.avgSpeed = 0
        · rw [if_pos hs]
          positivity
        · rw [if_neg hs]
          exact div_nonneg (Hdist r0 hr0) (Hspeed t ht)
    · rw [if_neg hc] at hval
      exact absurd hval (by simp)
  -- suppose the zero-speed entry had a positive count
  by_contra hne
  have hge : 1 ≤ σt kz := Nat.one_le_iff_ne_zero.mpr hne
  have hentry : (kz, (⟨rkv.1, tkv.1⟩ : TruckRoutePair)) ∈
      truck_route_combinations d := dlookup_mem Hkz
  have hterm : (10 * 10 ^ 100 : ℚ) ∈ trTerms d σt rkv.1 := by
    unfold trTerms
    rw [List.mem_filterMap]
    refine ⟨(kz, ⟨rkv.1, tkv.1⟩), hentry, ?_⟩
    have hcond : ((⟨rkv.1, tkv.1⟩ : TruckRoutePair).route = rkv.1) := rfl
    rw [if_pos hcond, htimes]
    have hmin : min (σt kz) 1 = 1 := by omega
    rw [hmin]
    norm_num
  -- the head commodity and its shelf-life constraint
  rcases List.exists_cons_of_ne_nil Hcomm with ⟨kv0, tl, hcons⟩
  obtain ⟨k0, vpa0⟩ := kv0
  have hk0 : (k0, vpa0) ∈ vaccine_point_combinations d := by
    rw [hcons]
    exact List.mem_cons_self _ _
  have hk0raw : (k0, vpa0) ∈ vpaRaw d := by
    have := hk0
    unfold vaccine_point_combinations at this
    exact mem_of_mem_dictOf this
  have hk0raw' := hk0raw
  unfold vpaRaw at hk0raw'
  rw [List.mem_flatMap] at hk0raw'
  rcases hk0raw' with ⟨v0, hv0, hmid⟩
  rw [List.mem_flatMap] at hmid
  rcases hmid with ⟨p0, hp0, hmid⟩
  rw [List.mem_map] at hmid
  rcases hmid with ⟨a0, ha0, he0⟩
  have hvpa0 : vpa0 = ⟨v0.1, p0.1, a0.1⟩ := by
    have := congrArg Prod.snd he0
    simpa using this.symm
  subst hvpa0
  have hshelf : shelf_constraint d k0 (⟨v0.1, p0.1, a0.1⟩ : Commodity).vaccine ∈
      prepare_data_constraints d := by
    unfold prepare_data_constraints
    simp only [List.mem_append]
    have hmm : shelf_constraint d k0 (⟨v0.1, p0.1, a0.1⟩ : Commodity).vaccine ∈
        shelf_constraints d := by
      unfold shelf_constraints
      exact List.mem_map.mpr ⟨(k0, ⟨v0.1, p0.1, a0.1⟩), hk0, rfl⟩
    tauto
  have hck0 : dlookup k0 (vaccine_point_combinations d) =
      some ⟨v0.1, p0.1, a0.1⟩ :=
    dlookup_eq_of_mem_nodup (nodup_dkeys_dictOf _) hk0
  have hvt : dlookup k0 (vaccine_travel_times d σt) =
      some (commodity_travel_time d σt (routesFor d ⟨v0.1, p0.1, a0.1⟩)) := by
    rw [vaccine_travel_times_lookup, hck0]
    rfl
  have hle : (dlookup k0 (vaccine_travel_times d σt)).getD 0 ≤
      (vaccineOf d (⟨v0.1, p0.1, a0.1⟩ : Commodity).vaccine).lifetime :=
    of_decide_eq_true (Hsat _ hshelf)
  rw [hvt] at hle
  simp only [Option.getD_some] at hle
  have hlt : (vaccineOf d (⟨v0.1, p0.1, a0.1⟩ : Commodity).vaccine).lifetime <
      10 * 10 ^ 100 := by
    unfold vaccineOf
    cases hv : dlookup (⟨v0.1, p0.1, a0.1⟩ : Commodity).vaccine d.vaccine_types with
    | none =>
      simp only [Option.getD_none]
      norm_num
    | some vt =>
      simp only [Option.getD_some]
      exact Hlife _ (dlookup_mem hv)
  have hroute_mem : rkv.1 ∈ routesFor d ⟨v0.1, p0.1, a0.1⟩ := by
    unfold routesFor
    rw [List.mem_filterMap]
    refine ⟨(rkv.1 ++ v0.1 ++ p0.1 ++ a0.1, ⟨rkv.1, v0.1, p0.1, a0.1⟩), ?_, ?_⟩
    · show _ ∈ route_vaccine_point_combinations d
      unfold route_vaccine_point_combinations
      apply mem_dictOf_of_mem_nodup Hrvpa
      unfold rvpaRaw
      rw [List.mem_flatMap]
      refine ⟨v0, hv0, ?_⟩
      rw [List.mem_flatMap]
      refine ⟨p0, hp0, ?_⟩
      rw [List.mem_flatMap]
      exact ⟨a0, ha0, List.mem_map.mpr ⟨rkv, hrk, rfl⟩⟩
    · rw [if_pos ⟨rfl, rfl, rfl⟩]
  have hmax : (10 * 10 ^ 100 : ℚ) ≤ listMax (trTerms d σt rkv.1) :=
    le_listMax_of_mem hterm
  have hctt : (10 * 10 ^ 100 : ℚ) ≤
      commodity_travel_time d σt (routesFor d ⟨v0.1, p0.1, a0.1⟩) := by
    unfold commodity_travel_time
    have hmem2 : listMax (trTerms d σt rkv.1) ∈
        (routesFor d ⟨v0.1, p0.1, a0.1⟩).map fun r => listMax (trTerms d σt r) :=
      List.mem_map.mpr ⟨rkv.1, hroute_mem, rfl⟩
    have hnn : ∀ x ∈ (routesFor d ⟨v0.1, p0.1, a0.1⟩).map
        fun r => listMax (trTerms d σt r), (0 : ℚ) ≤ x := by
      intro x hx
      rcases List.mem_map.mp hx with ⟨r', hr', rfl⟩
      exact listMax_nonneg (htermsnn r')
    exact le_trans hmax (single_le_qsum hmem2 hnn)
  linarith

set_option maxRecDepth 100000 in
/-- Witness for C7 on `d7`, whose only truck type has zero average speed:
the all-zero assignment satisfies every constraint, and the theorem forces
the count of the entry `RT0` to zero. -/
theorem c7_zero_speed_truck_witness :
    (vaccine_point_combinations d7 ≠ []) ∧ σ0 "RT0" = 0 :=
  ⟨by decide,
   c7_zero_speed_truck d7 (by decide) (by decide)
     (by with_unfolding_all decide) (by with_unfolding_all decide)
     (by with_unfolding_all decide) (by decide) σ0 σ0
     (List.all_eq_true.mp (by with_unfolding_all rfl)) "RT0" ⟨"R", "T0"⟩
     (by decide) (by with_unfolding_all decide)⟩
